import Mathlib

/-
Verification of the Naritcm-lidar-api door/limit/sensor service.

The door controller model below is a shallow embedding of
`DoorController` in `src/app/routers/roof.py` (structurally identical to
`DOManager` in `src/main.py` up to the pulse-duration ceiling and the
state-name spellings).  Each Python statement that touches shared state
(a GPIO line write, a state-field assignment, a lock acquire/release, the
`time.sleep`) becomes one atomic instruction; a thread is a program of
such instructions, and concurrency is arbitrary interleaving of thread
steps.  `threading.Lock` is modelled by a `lock : Option Nat` field
(holder's thread id); `acquire` is enabled only when the lock is free,
which is exactly Python's blocking acquire.
-/

inductive Target where
  | opn
  | cls
deriving DecidableEq, Repr, Fintype

/-- The `state` strings of `DoorController`:
`"idle" | "opening" | "closing" | "hold_open" | "hold_close"`. -/
inductive DState where
  | idle
  | opening
  | closing
  | holdOpen
  | holdClose
deriving DecidableEq, Repr, Fintype

/-- Shared controller state: the two output lines driven by
`gpio_open.write` / `gpio_close.write`, the `state` field, and the lock. -/
structure Ctrl where
  openL : Bool
  closeL : Bool
  st : DState
  lock : Option Nat
deriving DecidableEq, Repr

/-- One atomic action of a door-controller method body. -/
inductive Instr where
  | acquire
  | release
  | writeOpen (b : Bool)
  | writeClose (b : Bool)
  | setSt (s : DState)
  | sleep
deriving DecidableEq, Repr, Fintype

/-- Effect of one instruction executed by thread `tid`.  `none` means the
instruction is not enabled (blocking `acquire` on a taken lock). -/
def execInstr (c : Ctrl) (tid : Nat) : Instr → Option Ctrl
  | .acquire =>
      match c.lock with
      | none => some { c with lock := some tid }
      | some _ => none
  | .release => if c.lock = some tid then some { c with lock := none } else none
  | .writeOpen b => some { c with openL := b }
  | .writeClose b => some { c with closeL := b }
  | .setSt s => some { c with st := s }
  | .sleep => some c

/-- The five public mutating operations of `DoorController`. -/
inductive Op where
  | pulseO
  | pulseC
  | holdO
  | holdC
  | stopO
deriving DecidableEq, Repr, Fintype

/-- Instruction sequence of each method body, statement for statement.

`pulse`: `with lock: all_low(); state := opening/closing; line.write(True)`,
then `time.sleep(ms)` outside the lock, then the `finally` block
`with lock: all_low(); state := idle`.
`hold`: `with lock: all_low(); line.write(True); state := hold_*`.
`stop`: `with lock: all_low(); state := idle`. -/
def progOf : Op → List Instr
  | .pulseO =>
      [.acquire, .writeOpen false, .writeClose false, .setSt .opening,
       .writeOpen true, .release, .sleep, .acquire, .writeOpen false,
       .writeClose false, .setSt .idle, .release]
  | .pulseC =>
      [.acquire, .writeOpen false, .writeClose false, .setSt .closing,
       .writeClose true, .release, .sleep, .acquire, .writeOpen false,
       .writeClose false, .setSt .idle, .release]
  | .holdO =>
      [.acquire, .writeOpen false, .writeClose false, .writeOpen true,
       .setSt .holdOpen, .release]
  | .holdC =>
      [.acquire, .writeOpen false, .writeClose false, .writeClose true,
       .setSt .holdClose, .release]
  | .stopO =>
      [.acquire, .writeOpen false, .writeClose false, .setSt .idle, .release]

def opOfTarget : Target → Op
  | .opn => .pulseO
  | .cls => .pulseC

/-- A configuration: controller state plus each thread's operation and
program counter (number of instructions already executed). -/
structure Cfg where
  ctrl : Ctrl
  threads : List (Op × Nat)
deriving DecidableEq, Repr

/-- One interleaving step: thread `i` executes its next instruction. -/
def stepCfg (cfg : Cfg) (i : Nat) : Option Cfg := do
  let th ← cfg.threads[i]?
  let instr ← (progOf th.1)[th.2]?
  let c' ← execInstr cfg.ctrl i instr
  pure ⟨c', cfg.threads.set i (th.1, th.2 + 1)⟩

def StepR (a b : Cfg) : Prop := ∃ i, stepCfg a i = some b

/-- Reachability under arbitrary interleaving. -/
def Reach : Cfg → Cfg → Prop := Relation.ReflTransGen StepR

/-- Process start: `__init__` drives both lines low, state `idle`,
lock free, every thread about to run its operation. -/
def initCfg (ops : List Op) : Cfg :=
  ⟨⟨false, false, .idle, none⟩, ops.map (fun op => (op, 0))⟩

/-- Run a concrete schedule (a list of thread ids); a pick of a blocked
or finished thread leaves the configuration unchanged. -/
def runSched (cfg : Cfg) (sched : List Nat) : Cfg :=
  sched.foldl (fun c i => (stepCfg c i).getD c) cfg

/-- Sequential execution of an instruction list by a single thread
(thread id 0); a blocked instruction is skipped (never happens in the
uses below, which start from a free lock). -/
def execSeq (c : Ctrl) (l : List Instr) : Ctrl :=
  l.foldl (fun c i => (execInstr c 0 i).getD c) c

/-- `DoorController.pulse` as a sequential function: the `ms` range check
(`if ms <= 0 or ms > 30_000: raise ValueError`), then the method body. -/
def pulseRun (c : Ctrl) (t : Target) (ms : Nat) : Except String Ctrl :=
  if ms = 0 ∨ 30000 < ms then .error "ms must be 1..30000"
  else .ok (execSeq c (progOf (opOfTarget t)))

/-- The exit path where `time.sleep` raises: the first locked section has
run, the sleep is aborted, and the `finally` block still runs. -/
def pulseExcTrace (t : Target) : List Instr :=
  (progOf (opOfTarget t)).take 6 ++ (progOf (opOfTarget t)).drop 7

/-! ### Mutual exclusion of the OPEN/CLOSE output lines

Every locked section of `pulse`/`hold`/`stop` first runs `all_low()` and
only then asserts at most one line, so at no reachable instant are both
lines high — even though `pulse` releases the lock during its sleep.
The invariant below records, for the thread holding the lock, what the
lines are at each program point of its critical section. -/

/-- Program points inside a locked section (the lock is held after
executing the `acquire` at index 0 resp. 7 and until the matching
`release`). -/
def isCrit (op : Op) (pc : Nat) : Bool :=
  match op with
  | .pulseO | .pulseC =>
      (decide (1 ≤ pc) && decide (pc ≤ 5)) || (decide (8 ≤ pc) && decide (pc ≤ 11))
  | .holdO | .holdC => decide (1 ≤ pc) && decide (pc ≤ 5)
  | .stopO => decide (1 ≤ pc) && decide (pc ≤ 4)

/-- Line values guaranteed at each critical program point of an
operation, for the thread holding the lock. -/
def lineOK (op : Op) (pc : Nat) (o c : Bool) : Bool :=
  match op, pc with
  | .pulseO, 2 => !o
  | .pulseO, 3 => !o && !c
  | .pulseO, 4 => !o && !c
  | .pulseO, 5 => o && !c
  | .pulseO, 9 => !o
  | .pulseO, 10 => !o && !c
  | .pulseO, 11 => !o && !c
  | .pulseC, 2 => !o
  | .pulseC, 3 => !o && !c
  | .pulseC, 4 => !o && !c
  | .pulseC, 5 => !o && c
  | .pulseC, 9 => !o
  | .pulseC, 10 => !o && !c
  | .pulseC, 11 => !o && !c
  | .holdO, 2 => !o
  | .holdO, 3 => !o && !c
  | .holdO, 4 => o && !c
  | .holdO, 5 => o && !c
  | .holdC, 2 => !o
  | .holdC, 3 => !o && !c
  | .holdC, 4 => !o && c
  | .holdC, 5 => !o && c
  | .stopO, 2 => !o
  | .stopO, 3 => !o && !c
  | .stopO, 4 => !o && !c
  | _, _ => true

/-- Per-thread invariant: a thread holding the lock is at a critical
point with the recorded line values; any other thread is outside every
critical section. -/
def threadInv (mine : Bool) (op : Op) (pc : Nat) (o c : Bool) : Bool :=
  if mine then isCrit op pc && lineOK op pc o c else !(isCrit op pc)

/-- Global inductive invariant: the two lines are never both high, and
every thread satisfies `threadInv` with respect to lock ownership. -/
def DoorInv (cfg : Cfg) : Prop :=
  (cfg.ctrl.openL && cfg.ctrl.closeL) = false ∧
  ∀ i th, cfg.threads[i]? = some th →
    threadInv (decide (cfg.ctrl.lock = some i)) th.1 th.2
      cfg.ctrl.openL cfg.ctrl.closeL = true

lemma progOf_length_le (op : Op) : (progOf op).length ≤ 12 := by
  cases op <;> simp [progOf]

lemma threadInv_of_crit {m : Bool} {op : Op} {pc : Nat} {o c : Bool}
    (h : threadInv m op pc o c = true) (hc : isCrit op pc = true) :
    m = true ∧ lineOK op pc o c = true := by
  cases m with
  | false => simp [threadInv, hc] at h
  | true => simpa [threadInv, hc] using h

lemma core_writeOpen : ∀ (op : Op) (pc : Fin 13) (b o c : Bool),
    (progOf op)[pc.val]? = some (.writeOpen b) →
    isCrit op pc.val = true ∧ isCrit op (pc.val + 1) = true ∧
      (lineOK op pc.val o c = true →
        (b && c) = false ∧ lineOK op (pc.val + 1) b c = true) := by decide

lemma core_writeClose : ∀ (op : Op) (pc : Fin 13) (b o c : Bool),
    (progOf op)[pc.val]? = some (.writeClose b) →
    isCrit op pc.val = true ∧ isCrit op (pc.val + 1) = true ∧
      (lineOK op pc.val o c = true →
        (o && b) = false ∧ lineOK op (pc.val + 1) o b = true) := by decide

lemma core_setSt : ∀ (op : Op) (pc : Fin 13) (s : DState) (o c : Bool),
    (progOf op)[pc.val]? = some (.setSt s) →
    isCrit op pc.val = true ∧ isCrit op (pc.val + 1) = true ∧
      (lineOK op pc.val o c = true → lineOK op (pc.val + 1) o c = true) := by decide

lemma core_acquire : ∀ (op : Op) (pc : Fin 13) (o c : Bool),
    (progOf op)[pc.val]? = some .acquire →
    isCrit op pc.val = false ∧ isCrit op (pc.val + 1) = true ∧
      lineOK op (pc.val + 1) o c = true := by decide

lemma core_release : ∀ (op : Op) (pc : Fin 13),
    (progOf op)[pc.val]? = some .release →
    isCrit op pc.val = true ∧ isCrit op (pc.val + 1) = false := by decide

lemma core_sleep : ∀ (op : Op) (pc : Fin 13),
    (progOf op)[pc.val]? = some .sleep →
    isCrit op pc.val = false ∧ isCrit op (pc.val + 1) = false := by decide

lemma frame_other {op : Op} {pc : Nat} {o c o' c' : Bool} {m m' : Bool}
    (hm : m = false) (hm' : m' = false)
    (h : threadInv m op pc o c = true) : threadInv m' op pc o' c' = true := by
  subst hm; subst hm'; simpa [threadInv] using h

/-- The invariant is preserved by every interleaving step. -/
lemma doorInv_step {cfg cfg' : Cfg} {i : Nat} (hInv : DoorInv cfg)
    (h : stepCfg cfg i = some cfg') : DoorInv cfg' := by
  obtain ⟨hboth, hth⟩ := hInv
  unfold stepCfg at h
  cases hthi : cfg.threads[i]? with
  | none => rw [hthi] at h; simp at h
  | some th =>
  cases hinstr : (progOf th.1)[th.2]? with
  | none => rw [hthi] at h; simp [hinstr] at h
  | some instr =>
  cases hex : execInstr cfg.ctrl i instr with
  | none => rw [hthi] at h; simp [hinstr, hex] at h
  | some c' =>
  rw [hthi] at h
  simp [hinstr, hex] at h
  obtain ⟨op, pc⟩ := th
  have hiLen : i < cfg.threads.length := (List.getElem?_eq_some.mp hthi).1
  have hpc13 : pc < 13 := by
    have h1 : pc < (progOf op).length := (List.getElem?_eq_some.mp hinstr).1
    have h2 := progOf_length_le op
    omega
  have hme := hth i (op, pc) hthi
  have hset : (cfg.threads.set i (op, pc + 1))[i]? = some (op, pc + 1) := by
    simp [List.getElem?_set_self', hiLen]
  cases h
  cases instr with
  | writeOpen b =>
    simp only [execInstr, Option.some.injEq] at hex
    obtain ⟨hc1, hc2, hc3⟩ :=
      core_writeOpen op ⟨pc, hpc13⟩ b cfg.ctrl.openL cfg.ctrl.closeL hinstr
    obtain ⟨hmine, hlok⟩ := threadInv_of_crit hme hc1
    have hlock : cfg.ctrl.lock = some i := of_decide_eq_true hmine
    obtain ⟨hbc, hlok'⟩ := hc3 hlok
    subst hex
    refine ⟨hbc, ?_⟩
    intro k th' hk
    rcases eq_or_ne k i with rfl | hne
    · rw [hset] at hk
      cases hk
      simp [threadInv, hlock, hc2, hlok']
    · rw [List.getElem?_set_ne (Ne.symm hne)] at hk
      refine frame_other ?_ ?_ (hth k th' hk) <;>
        simp [hlock, (Ne.symm hne : i ≠ k)]
  | writeClose b =>
    simp only [execInstr, Option.some.injEq] at hex
    obtain ⟨hc1, hc2, hc3⟩ :=
      core_writeClose op ⟨pc, hpc13⟩ b cfg.ctrl.openL cfg.ctrl.closeL hinstr
    obtain ⟨hmine, hlok⟩ := threadInv_of_crit hme hc1
    have hlock : cfg.ctrl.lock = some i := of_decide_eq_true hmine
    obtain ⟨hbc, hlok'⟩ := hc3 hlok
    subst hex
    refine ⟨hbc, ?_⟩
    intro k th' hk
    rcases eq_or_ne k i with rfl | hne
    · rw [hset] at hk
      cases hk
      simp [threadInv, hlock, hc2, hlok']
    · rw [List.getElem?_set_ne (Ne.symm hne)] at hk
      refine frame_other ?_ ?_ (hth k th' hk) <;>
        simp [hlock, (Ne.symm hne : i ≠ k)]
  | setSt s =>
    simp only [execInstr, Option.some.injEq] at hex
    obtain ⟨hc1, hc2, hc3⟩ :=
      core_setSt op ⟨pc, hpc13⟩ s cfg.ctrl.openL cfg.ctrl.closeL hinstr
    obtain ⟨hmine, hlok⟩ := threadInv_of_crit hme hc1
    have hlock : cfg.ctrl.lock = some i := of_decide_eq_true hmine
    subst hex
    refine ⟨hboth, ?_⟩
    intro k th' hk
    rcases eq_or_ne k i with rfl | hne
    · rw [hset] at hk
      cases hk
      simp [threadInv, hlock, hc2, hc3 hlok]
    · rw [List.getElem?_set_ne (Ne.symm hne)] at hk
      refine frame_other ?_ ?_ (hth k th' hk) <;>
        simp [hlock, (Ne.symm hne : i ≠ k)]
  | sleep =>
    simp only [execInstr, Option.some.injEq] at hex
    obtain ⟨hc1, hc2⟩ := core_sleep op ⟨pc, hpc13⟩ hinstr
    subst hex
    refine ⟨hboth, ?_⟩
    intro k th' hk
    rcases eq_or_ne k i with rfl | hne
    · rw [hset] at hk
      cases hk
      have hmf : ¬cfg.ctrl.lock = some k := fun hl => by
        rw [hl] at hme
        simp [threadInv, hc1] at hme
      simp [threadInv, hmf, hc2]
    · rw [List.getElem?_set_ne (Ne.symm hne)] at hk
      exact hth k th' hk
  | acquire =>
    simp only [execInstr] at hex
    cases hl : cfg.ctrl.lock with
    | some j => rw [hl] at hex; simp at hex
    | none =>
    rw [hl] at hex
    simp only [Option.some.injEq] at hex
    obtain ⟨hc1, hc2, hc3⟩ :=
      core_acquire op ⟨pc, hpc13⟩ cfg.ctrl.openL cfg.ctrl.closeL hinstr
    subst hex
    refine ⟨hboth, ?_⟩
    intro k th' hk
    rcases eq_or_ne k i with rfl | hne
    · rw [hset] at hk
      cases hk
      simp [threadInv, hc2, hc3]
    · rw [List.getElem?_set_ne (Ne.symm hne)] at hk
      refine frame_other ?_ ?_ (hth k th' hk) <;>
        simp [hl, (Ne.symm hne : i ≠ k)]
  | release =>
    simp only [execInstr] at hex
    split at hex
    case isFalse => simp at hex
    case isTrue hl =>
    simp only [Option.some.injEq] at hex
    obtain ⟨hc1, hc2⟩ := core_release op ⟨pc, hpc13⟩ hinstr
    subst hex
    refine ⟨hboth, ?_⟩
    intro k th' hk
    rcases eq_or_ne k i with rfl | hne
    · rw [hset] at hk
      cases hk
      simp [threadInv, hc2]
    · rw [List.getElem?_set_ne (Ne.symm hne)] at hk
      refine frame_other ?_ ?_ (hth k th' hk) <;>
        simp [hl, (Ne.symm hne : i ≠ k)]

lemma doorInv_init (ops : List Op) : DoorInv (initCfg ops) := by
  refine ⟨rfl, ?_⟩
  intro i th hth
  simp only [initCfg, List.getElem?_map] at hth
  cases hops : ops[i]? with
  | none => rw [hops] at hth; simp at hth
  | some op =>
    rw [hops] at hth
    simp only [Option.map_some', Option.some.injEq] at hth
    cases hth
    cases op <;> rfl

lemma doorInv_reach {a b : Cfg} (h : Reach a b) (ha : DoorInv a) : DoorInv b := by
  induction h with
  | refl => exact ha
  | tail _ hstep ih =>
    obtain ⟨i, hi⟩ := hstep
    exact doorInv_step ih hi

/-- Any schedule only moves through reachable configurations. -/
lemma reach_runSched (cfg : Cfg) (sched : List Nat) :
    Reach cfg (runSched cfg sched) := by
  induction sched generalizing cfg with
  | nil => exact .refl
  | cons i rest ih =>
    have h1 : Reach cfg ((stepCfg cfg i).getD cfg) := by
      cases hs : stepCfg cfg i with
      | none => exact .refl
      | some c2 => simpa using Relation.ReflTransGen.single ⟨i, hs⟩
    have h2 := ih ((stepCfg cfg i).getD cfg)
    exact h1.trans (by simpa [runSched, List.foldl_cons] using h2)

/-- C1 (amended): for any number of concurrent `pulse`/`hold`/`stop`
operations on the same controller, started from the initial state, at no
reachable instant are both the OPEN and CLOSE output lines asserted high.
(The claim's mechanism — that `pulse` keeps exclusive access for its full
duration including the sleep — is false, see the counterexample theorem:
the lock is released before `time.sleep`.  Mutual exclusion of the
outputs holds anyway because every locked section runs `all_low()` before
asserting one line.) -/
theorem C1_outputs_never_both_high (ops : List Op) (cfg : Cfg)
    (h : Reach (initCfg ops) cfg) :
    ¬(cfg.ctrl.openL = true ∧ cfg.ctrl.closeL = true) := by
  rintro ⟨h1, h2⟩
  have := (doorInv_reach h (doorInv_init ops)).1
  rw [h1, h2] at this
  simp at this

/-- Witness for C1: a concrete interleaving of a `pulse("open")` thread
and a `hold("close")` thread, stopped mid-pulse with the OPEN line high. -/
theorem C1_outputs_never_both_high_witness :
    ¬((runSched (initCfg [Op.pulseO, Op.holdC]) [0, 0, 0, 0, 0]).ctrl.openL = true ∧
      (runSched (initCfg [Op.pulseO, Op.holdC]) [0, 0, 0, 0, 0]).ctrl.closeL = true) :=
  C1_outputs_never_both_high [Op.pulseO, Op.holdC] _ (reach_runSched _ _)

/-- Counterexample to C1 as stated: `pulse` does NOT hold exclusive
access to the actuator for its full duration.  After six steps of the
pulse thread (the locked assert section, `release`, with the `time.sleep`
still pending at pc 6) the lock is free and the OPEN line is high; a
concurrent `hold("close")` thread then runs to completion during the
pulse's sleep, acquiring the lock and re-driving the lines (this trace is
exactly the "source race" the mutual-exclusion mechanism of the claim
would forbid). -/
theorem C1_counter_no_exclusive_access_during_sleep :
    (runSched (initCfg [Op.pulseO, Op.holdC]) [0, 0, 0, 0, 0, 0]).threads[0]? =
        some (Op.pulseO, 6) ∧
    (runSched (initCfg [Op.pulseO, Op.holdC]) [0, 0, 0, 0, 0, 0]).ctrl.openL = true ∧
    (runSched (initCfg [Op.pulseO, Op.holdC]) [0, 0, 0, 0, 0, 0]).ctrl.lock = none ∧
    (runSched (initCfg [Op.pulseO, Op.holdC])
        [0, 0, 0, 0, 0, 0, 1, 1, 1, 1, 1, 1]).threads[1]? = some (Op.holdC, 6) ∧
    (runSched (initCfg [Op.pulseO, Op.holdC])
        [0, 0, 0, 0, 0, 0, 1, 1, 1, 1, 1, 1]).threads[0]? = some (Op.pulseO, 6) ∧
    (runSched (initCfg [Op.pulseO, Op.holdC])
        [0, 0, 0, 0, 0, 0, 1, 1, 1, 1, 1, 1]).ctrl.closeL = true ∧
    (runSched (initCfg [Op.pulseO, Op.holdC])
        [0, 0, 0, 0, 0, 0, 1, 1, 1, 1, 1, 1]).ctrl.st = DState.holdClose := by
  decide

/-- Both lines de-asserted and the state machine back in `idle`. -/
def allOffIdle (c : Ctrl) : Prop :=
  c.openL = false ∧ c.closeL = false ∧ c.st = DState.idle

/-- C2: for every valid duration (`1 ≤ ms ≤ 30000`), `pulse` accepts the
request, and on every exit path — the normal one and the one where the
sleep is aborted by an exception — the `finally` block leaves both output
lines de-asserted and the state `idle` (from any starting line/state
configuration with the lock free). -/
theorem C2_pulse_restores_idle (c : Ctrl) (t : Target) (ms : Nat)
    (hl : c.lock = none) (h1 : 1 ≤ ms) (h2 : ms ≤ 30000) :
    (pulseRun c t ms = .ok (execSeq c (progOf (opOfTarget t))) ∧
      allOffIdle (execSeq c (progOf (opOfTarget t))) ∧
      (execSeq c (progOf (opOfTarget t))).lock = none) ∧
    (allOffIdle (execSeq c (pulseExcTrace t)) ∧
      (execSeq c (pulseExcTrace t)).lock = none) := by
  have hms : ¬(ms = 0 ∨ 30000 < ms) := by omega
  cases t <;>
    simp [pulseRun, hms, opOfTarget, progOf, pulseExcTrace, execSeq, execInstr,
      allOffIdle, hl]

/-- Witness for C2: `pulse("open", 800)` from the freshly initialised
controller. -/
theorem C2_pulse_restores_idle_witness :
    (pulseRun ⟨false, false, .idle, none⟩ .opn 800 =
        .ok (execSeq ⟨false, false, .idle, none⟩ (progOf (opOfTarget .opn))) ∧
      allOffIdle (execSeq ⟨false, false, .idle, none⟩ (progOf (opOfTarget .opn))) ∧
      (execSeq ⟨false, false, .idle, none⟩ (progOf (opOfTarget .opn))).lock = none) ∧
    (allOffIdle (execSeq ⟨false, false, .idle, none⟩ (pulseExcTrace .opn)) ∧
      (execSeq ⟨false, false, .idle, none⟩ (pulseExcTrace .opn)).lock = none) :=
  C2_pulse_restores_idle ⟨false, false, .idle, none⟩ .opn 800 rfl (by omega) (by omega)

/-- C3 (amended): `stop()` always succeeds, de-asserts both lines and
transitions the state to `idle` — but it does not cancel an in-flight
`pulse`'s sleep (there is no cancellation mechanism: the pulse thread's
plain `time.sleep` always completes, after which its `finally` block —
`(progOf .pulseO).drop 7`, the delayed reset — runs unconditionally,
forcing both lines low and the state to `idle` regardless of what `stop`
or a later `hold` did in between). -/
theorem C3_stop_idles_but_pulse_reset_still_runs (c : Ctrl) (hl : c.lock = none) :
    (allOffIdle (execSeq c (progOf .stopO)) ∧
      (execSeq c (progOf .stopO)).lock = none) ∧
    (allOffIdle (execSeq c ((progOf .pulseO).drop 7)) ∧
      (execSeq c ((progOf .pulseO).drop 7)).lock = none) ∧
    (allOffIdle (execSeq c ((progOf .pulseC).drop 7)) ∧
      (execSeq c ((progOf .pulseC).drop 7)).lock = none) := by
  simp [execSeq, execInstr, progOf, allOffIdle, hl]

/-- Witness for C3 (amended): from a `hold("close")` state (CLOSE line
high), `stop` — and equally a pending pulse's delayed reset — forces both
lines low and `idle`, i.e. the reset clobbers whatever came before it. -/
theorem C3_stop_idles_witness :
    (allOffIdle (execSeq ⟨false, true, .holdClose, none⟩ (progOf .stopO)) ∧
      (execSeq ⟨false, true, .holdClose, none⟩ (progOf .stopO)).lock = none) ∧
    (allOffIdle (execSeq ⟨false, true, .holdClose, none⟩ ((progOf .pulseO).drop 7)) ∧
      (execSeq ⟨false, true, .holdClose, none⟩ ((progOf .pulseO).drop 7)).lock = none) ∧
    (allOffIdle (execSeq ⟨false, true, .holdClose, none⟩ ((progOf .pulseC).drop 7)) ∧
      (execSeq ⟨false, true, .holdClose, none⟩ ((progOf .pulseC).drop 7)).lock = none) :=
  C3_stop_idles_but_pulse_reset_still_runs ⟨false, true, .holdClose, none⟩ rfl

/-- Counterexample to C3 as stated: `stop` does not cancel the pending
pulse's delayed reset, and that reset does re-reset state afterwards.
Trace: thread 0 runs `pulse("open")` up to its sleep; thread 1 runs
`stop()` to completion; thread 2 then runs `hold("close")` to completion
(CLOSE high, state `hold_close`); finally thread 0 wakes and runs its
`finally` block, clobbering the hold: both lines end low and the state
ends `idle` even though the most recent operation was a hold. -/
theorem C3_counter_stop_does_not_cancel_pulse :
    (runSched (initCfg [Op.pulseO, Op.stopO, Op.holdC])
        [0, 0, 0, 0, 0, 0, 1, 1, 1, 1, 1, 2, 2, 2, 2, 2, 2]).ctrl.closeL = true ∧
    (runSched (initCfg [Op.pulseO, Op.stopO, Op.holdC])
        [0, 0, 0, 0, 0, 0, 1, 1, 1, 1, 1, 2, 2, 2, 2, 2, 2]).ctrl.st =
        DState.holdClose ∧
    (runSched (initCfg [Op.pulseO, Op.stopO, Op.holdC])
        [0, 0, 0, 0, 0, 0, 1, 1, 1, 1, 1, 2, 2, 2, 2, 2, 2]).threads[0]? =
        some (Op.pulseO, 6) ∧
    (runSched (initCfg [Op.pulseO, Op.stopO, Op.holdC])
        [0, 0, 0, 0, 0, 0, 1, 1, 1, 1, 1, 2, 2, 2, 2, 2, 2, 0, 0, 0, 0, 0, 0]).ctrl.closeL =
        false ∧
    (runSched (initCfg [Op.pulseO, Op.stopO, Op.holdC])
        [0, 0, 0, 0, 0, 0, 1, 1, 1, 1, 1, 2, 2, 2, 2, 2, 2, 0, 0, 0, 0, 0, 0]).ctrl.st =
        DState.idle ∧
    (runSched (initCfg [Op.pulseO, Op.stopO, Op.holdC])
        [0, 0, 0, 0, 0, 0, 1, 1, 1, 1, 1, 2, 2, 2, 2, 2, 2, 0, 0, 0, 0, 0, 0]).threads[0]? =
        some (Op.pulseO, 12) := by
  decide

/-! ### DebouncedInput (roof.py)

`_loop` samples the (polarity-normalised) input every 10 ms; on an
observed change it records the raw level and the change timestamp, and it
copies the raw level to the stable level once
`(now - last_change) * 1000 >= DI1_DEBOUNCE_MS`.  The model processes an
arbitrary finite trace of `(time in ms, electrical level)` samples; the
10 ms period is just one possible choice of sample times. -/

structure DebState where
  raw : Bool
  stable : Bool
  lastChange : Nat
deriving DecidableEq, Repr

/-- `_read_norm`: `v if DI1_ACTIVE_HIGH else (not v)`. -/
def readNorm (activeHigh v : Bool) : Bool := if activeHigh then v else !v

/-- One iteration of the `_loop` body, at monotonic time `now` (ms) with
electrical sample `v`; `D` is `DI1_DEBOUNCE_MS`. -/
def debStep (D : Nat) (ah : Bool) (s : DebState) (now : Nat) (v : Bool) : DebState :=
  let w := readNorm ah v
  let s1 := if w ≠ s.raw then { s with raw := w, lastChange := now } else s
  if D ≤ now - s1.lastChange then { s1 with stable := s1.raw } else s1

/-- The initialisation at the top of `_loop`: first sample at `t0`. -/
def debInit (ah : Bool) (t0 : Nat) (v0 : Bool) : DebState :=
  ⟨readNorm ah v0, readNorm ah v0, t0⟩

def debRun (D : Nat) (ah : Bool) (s : DebState) (tr : List (Nat × Bool)) : DebState :=
  tr.foldl (fun s p => debStep D ah s p.1 p.2) s

/-- `DebouncedInput.read`: the current stable level. -/
def debRead (s : DebState) : Bool := s.stable

lemma debStep_fields (D : Nat) (ah : Bool) (s : DebState) (t : Nat) (v : Bool) :
    (debStep D ah s t v).raw = readNorm ah v ∧
    (debStep D ah s t v).lastChange =
      (if readNorm ah v = s.raw then s.lastChange else t) ∧
    (debStep D ah s t v).stable =
      (if D ≤ t - (if readNorm ah v = s.raw then s.lastChange else t)
        then readNorm ah v else s.stable) := by
  unfold debStep
  by_cases h : readNorm ah v = s.raw
  · simp only [h, ne_eq, not_true_eq_false, if_true, ite_false, if_pos]
    split <;> simp [h]
  · simp only [ne_eq, h, not_false_eq_true, if_true, ite_true, if_neg]
    split <;> simp

/-- What the sampling loop knows after processing `hist` up to time
`tcur`: the change timestamp is in the past, all processed samples are in
the past, and every sample at or after the change timestamp read the
current raw level. -/
def DebGood (ah : Bool) (hist : List (Nat × Bool)) (tcur : Nat) (s : DebState) : Prop :=
  s.lastChange ≤ tcur ∧
  (∀ p ∈ hist, p.1 ≤ tcur) ∧
  (∀ p ∈ hist, s.lastChange ≤ p.1 → readNorm ah p.2 = s.raw)

lemma debStep_good {ah : Bool} {hist : List (Nat × Bool)} {tcur : Nat} {s : DebState}
    (D : Nat) (t : Nat) (v : Bool)
    (hg : DebGood ah hist tcur s) (ht : tcur < t) :
    DebGood ah (hist ++ [(t, v)]) t (debStep D ah s t v) := by
  obtain ⟨h1, h2, h3⟩ := hg
  obtain ⟨hr, hlc, -⟩ := debStep_fields D ah s t v
  have h2' : ∀ p ∈ hist ++ [(t, v)], p.1 ≤ t := by
    intro p hp
    rcases List.mem_append.mp hp with hp | hp
    · exact le_trans (h2 p hp) (le_of_lt ht)
    · rw [List.mem_singleton.mp hp]
  by_cases h : readNorm ah v = s.raw
  · rw [if_pos h] at hlc
    refine ⟨by omega, h2', ?_⟩
    intro p hp hlcp
    rw [hr, h]
    rcases List.mem_append.mp hp with hp | hp
    · rw [hlc] at hlcp
      exact h3 p hp hlcp
    · rw [List.mem_singleton.mp hp, h]
  · rw [if_neg h] at hlc
    refine ⟨by omega, h2', ?_⟩
    intro p hp hlcp
    rw [hlc] at hlcp
    rw [hr]
    rcases List.mem_append.mp hp with hp | hp
    · exact absurd (h2 p hp) (by omega)
    · rw [List.mem_singleton.mp hp]

/-- Time of the last sample of a trace (or `tcur` for the empty trace). -/
def lastTime (tcur : Nat) (tr : List (Nat × Bool)) : Nat :=
  tr.foldl (fun _ p => p.1) tcur

lemma debRun_good (D : Nat) (ah : Bool) :
    ∀ (tr : List (Nat × Bool)) (hist : List (Nat × Bool)) (tcur : Nat) (s : DebState),
      DebGood ah hist tcur s →
      List.Chain (· < ·) tcur (tr.map Prod.fst) →
      DebGood ah (hist ++ tr) (lastTime tcur tr) (debRun D ah s tr) := by
  intro tr
  induction tr with
  | nil => intro hist tcur s hg _; simpa [debRun, lastTime] using hg
  | cons q rest ih =>
    intro hist tcur s hg hchain
    obtain ⟨t, v⟩ := q
    rw [List.map_cons, List.chain_cons] at hchain
    have hg1 := debStep_good D t v hg hchain.1
    have := ih (hist ++ [(t, v)]) t (debStep D ah s t v) hg1 hchain.2
    simpa [debRun, lastTime, List.append_assoc] using this

lemma chain_append_last {α : Type} {R : α → α → Prop} :
    ∀ (l : List α) (a b : α), List.Chain R a (l ++ [b]) →
      List.Chain R a l ∧ R (l.foldl (fun _ x => x) a) b := by
  intro l
  induction l with
  | nil => intro a b h; simp only [List.nil_append, List.chain_cons] at h; simp [h.1]
  | cons x xs ih =>
    intro a b h
    rw [List.cons_append, List.chain_cons] at h
    obtain ⟨hc, hl⟩ := ih x b h.2
    exact ⟨List.chain_cons.mpr ⟨h.1, hc⟩, by simpa using hl⟩

/-- Persistence: if processing one more sample changes the stable level,
then the new stable level equals the current raw level and every sample
taken within the debounce window `D` before the new sample read exactly
that level. -/
lemma deb_stable_change_persist (D : Nat) (ah : Bool) (t0 : Nat) (v0 : Bool)
    (tr : List (Nat × Bool)) (t : Nat) (v : Bool)
    (hchain : List.Chain (· < ·) t0 (tr.map Prod.fst ++ [t]))
    (hne : (debStep D ah (debRun D ah (debInit ah t0 v0) tr) t v).stable ≠
      (debRun D ah (debInit ah t0 v0) tr).stable) :
    (debStep D ah (debRun D ah (debInit ah t0 v0) tr) t v).stable =
      (debStep D ah (debRun D ah (debInit ah t0 v0) tr) t v).raw ∧
    ∀ p ∈ (t0, v0) :: (tr ++ [(t, v)]), t - p.1 ≤ D →
      readNorm ah p.2 =
        (debStep D ah (debRun D ah (debInit ah t0 v0) tr) t v).stable := by
  obtain ⟨hchain0, hlast⟩ := chain_append_last (tr.map Prod.fst) t0 t hchain
  have hlast' : lastTime t0 tr < t := by
    have : lastTime t0 tr = (tr.map Prod.fst).foldl (fun _ x => x) t0 := by
      simp [lastTime, List.foldl_map]
    rw [this]; exact hlast
  have hgood : DebGood ah ((t0, v0) :: tr) (lastTime t0 tr)
      (debRun D ah (debInit ah t0 v0) tr) := by
    have hg0 : DebGood ah [(t0, v0)] t0 (debInit ah t0 v0) := by
      refine ⟨le_refl _, ?_, ?_⟩
      · intro p hp; rw [List.mem_singleton.mp hp]
      · intro p hp _; rw [List.mem_singleton.mp hp]; rfl
    simpa using debRun_good D ah tr [(t0, v0)] t0 (debInit ah t0 v0) hg0 hchain0
  obtain ⟨h1, h2, h3⟩ := hgood
  set s := debRun D ah (debInit ah t0 v0) tr with hs
  obtain ⟨hr, hlc, hst⟩ := debStep_fields D ah s t v
  by_cases h : readNorm ah v = s.raw
  · -- no observed change at this sample: the guard must have fired
    rw [if_pos h] at hlc hst
    have hfire : D ≤ t - s.lastChange := by
      by_contra hguard
      rw [if_neg hguard] at hst
      exact hne hst
    rw [if_pos hfire] at hst
    refine ⟨by rw [hst, hr], ?_⟩
    intro p hp hwin
    rw [hst]
    rcases List.mem_cons.mp hp with hp | hp
    · have hmem : p ∈ (t0, v0) :: tr := by rw [hp]; exact List.mem_cons_self _ _
      have hple := h2 p hmem
      rw [h]
      exact h3 p hmem (by omega)
    · rcases List.mem_append.mp hp with hp | hp
      · have hmem : p ∈ (t0, v0) :: tr := List.mem_cons_of_mem _ hp
        have hple := h2 p hmem
        rw [h]
        exact h3 p hmem (by omega)
      · rw [List.mem_singleton.mp hp]
  · -- observed change at this sample: the guard only fires when D = 0
    rw [if_neg h] at hlc hst
    have hD : D = 0 := by
      by_contra hD
      rw [if_neg (by omega)] at hst
      exact hne hst
    rw [if_pos (by omega)] at hst
    refine ⟨by rw [hst, hr], ?_⟩
    intro p hp hwin
    rw [hst]
    have hwin' : t ≤ p.1 := by omega
    rcases List.mem_cons.mp hp with hp | hp
    · have hple : p.1 ≤ lastTime t0 tr :=
        h2 p (by rw [hp]; exact List.mem_cons_self _ _)
      exact absurd hple (by omega)
    · rcases List.mem_append.mp hp with hp | hp
      · have hple : p.1 ≤ lastTime t0 tr := h2 p (List.mem_cons_of_mem _ hp)
        exact absurd hple (by omega)
      · rw [List.mem_singleton.mp hp]

/-- If no level different from the initial stable one is ever sustained
for a full debounce window (every sample has, within the window before
it, some sample reading the initial level), the stable level never
changes. -/
lemma deb_no_sustained_no_change (D : Nat) (ah : Bool) (t0 : Nat) (v0 : Bool) :
    ∀ (tr : List (Nat × Bool)),
      List.Chain (· < ·) t0 (tr.map Prod.fst) →
      (∀ xs t v ys, tr = xs ++ (t, v) :: ys →
        ∃ p ∈ (t0, v0) :: (xs ++ [(t, v)]),
          t - p.1 ≤ D ∧ readNorm ah p.2 = readNorm ah v0) →
      (debRun D ah (debInit ah t0 v0) tr).stable = readNorm ah v0 := by
  intro tr
  induction tr using List.reverseRecOn with
  | nil => intro _ _; rfl
  | append_singleton xs q ih =>
    intro hchain hH
    obtain ⟨t, v⟩ := q
    have hchain' : List.Chain (· < ·) t0 (xs.map Prod.fst ++ [t]) := by
      simpa using hchain
    have hchain0 := (chain_append_last _ _ _ hchain').1
    have ihs : (debRun D ah (debInit ah t0 v0) xs).stable = readNorm ah v0 :=
      ih hchain0 (fun as t' v' bs hsplit =>
        hH as t' v' (bs ++ [(t, v)]) (by rw [hsplit]; simp))
    have hrun : debRun D ah (debInit ah t0 v0) (xs ++ [(t, v)]) =
        debStep D ah (debRun D ah (debInit ah t0 v0) xs) t v := by
      simp [debRun, List.foldl_append]
    rw [hrun]
    by_cases hch : (debStep D ah (debRun D ah (debInit ah t0 v0) xs) t v).stable =
        (debRun D ah (debInit ah t0 v0) xs).stable
    · rw [hch, ihs]
    · obtain ⟨-, hpers⟩ := deb_stable_change_persist D ah t0 v0 xs t v hchain' hch
      obtain ⟨p, hp, hwin, hval⟩ := hH xs t v [] rfl
      have hps := hpers p hp hwin
      rw [← hps]
      exact hval

/-- Running through samples that all read the state's raw level never
moves the change timestamp, and a final sample at least `D` after the
change timestamp copies the raw level to the stable level. -/
lemma debRun_same_fires (D : Nat) (ah : Bool) :
    ∀ (tr : List (Nat × Bool)) (s : DebState) (t : Nat) (v : Bool),
      (∀ p ∈ tr, readNorm ah p.2 = s.raw) → readNorm ah v = s.raw →
      D ≤ t - s.lastChange →
      (debRun D ah s (tr ++ [(t, v)])).stable = s.raw := by
  intro tr
  induction tr with
  | nil =>
    intro s t v _ hv hg
    obtain ⟨hr, hlc, hst⟩ := debStep_fields D ah s t v
    rw [if_pos hv, if_pos hg] at hst
    simp only [List.nil_append, debRun, List.foldl_cons, List.foldl_nil]
    rw [hst, hv]
  | cons q qs ih =>
    intro s t v hall hv hg
    obtain ⟨tq, vq⟩ := q
    have hq : readNorm ah vq = s.raw := hall (tq, vq) (List.mem_cons_self _ _)
    obtain ⟨hr, hlc, -⟩ := debStep_fields D ah s tq vq
    rw [if_pos hq] at hlc
    have hr' : (debStep D ah s tq vq).raw = s.raw := by rw [hr, hq]
    have hres := ih (debStep D ah s tq vq) t v
      (fun p hp => by rw [hr']; exact hall p (List.mem_cons_of_mem _ hp))
      (by rw [hr']; exact hv)
      (by rw [hlc]; exact hg)
    rw [hr'] at hres
    simpa [debRun, List.foldl_cons] using hres

lemma get_append_cons {α : Type} :
    ∀ (xs : List α) (q : α) (ys : List α) (h : xs.length < (xs ++ q :: ys).length),
      (xs ++ q :: ys).get ⟨xs.length, h⟩ = q := by
  intro xs
  induction xs with
  | nil => intro q ys h; rfl
  | cons x xs ih => intro q ys h; simpa using ih q ys (by simp)

lemma take_append_cons {α : Type} :
    ∀ (xs : List α) (q : α) (ys : List α),
      (xs ++ q :: ys).take (xs.length + 1) = xs ++ [q] := by
  intro xs
  induction xs with
  | nil => intro q ys; rfl
  | cons x xs ih => intro q ys; simpa using ih q ys

/-- C4: the debounce contract of `DebouncedInput`.
(i) Whenever the sampling loop changes the externally visible stable
level, the new stable level is the current polarity-normalised raw level
and every sample taken within the debounce window before the deciding
sample read exactly that level — the stable level adopts the raw level
only once it has persisted (at the sampling instants) for the window.
(ii) Hence a raw change never sustained for the window (each sample has,
within the window before it, a sample at the initial level) never changes
`read()`'s result.
(iii) And a change sustained from its first sample until a sample at
least the window later does change `read()`'s result. -/
theorem C4_debounce_contract :
    (∀ (D : Nat) (ah : Bool) (t0 : Nat) (v0 : Bool) (tr : List (Nat × Bool))
        (t : Nat) (v : Bool),
      List.Chain (· < ·) t0 (tr.map Prod.fst ++ [t]) →
      debRead (debStep D ah (debRun D ah (debInit ah t0 v0) tr) t v) ≠
        debRead (debRun D ah (debInit ah t0 v0) tr) →
      debRead (debStep D ah (debRun D ah (debInit ah t0 v0) tr) t v) =
          (debStep D ah (debRun D ah (debInit ah t0 v0) tr) t v).raw ∧
        ∀ p ∈ (t0, v0) :: (tr ++ [(t, v)]), t - p.1 ≤ D →
          readNorm ah p.2 =
            debRead (debStep D ah (debRun D ah (debInit ah t0 v0) tr) t v)) ∧
    (∀ (D : Nat) (ah : Bool) (t0 : Nat) (v0 : Bool) (tr : List (Nat × Bool)),
      List.Chain (· < ·) t0 (tr.map Prod.fst) →
      (∀ k : Fin tr.length, ∃ p ∈ (t0, v0) :: tr.take (k.val + 1),
        (tr.get k).1 - p.1 ≤ D ∧ readNorm ah p.2 = readNorm ah v0) →
      debRead (debRun D ah (debInit ah t0 v0) tr) = readNorm ah v0) ∧
    (∀ (D : Nat) (ah : Bool) (t0 : Nat) (v0 : Bool) (t1 : Nat) (v1 : Bool)
        (rest : List (Nat × Bool)) (tn : Nat) (vn : Bool),
      (∀ p ∈ (t1, v1) :: (rest ++ [(tn, vn)]),
        readNorm ah p.2 = !readNorm ah v0) →
      D ≤ tn - t1 →
      debRead (debRun D ah (debInit ah t0 v0) ((t1, v1) :: (rest ++ [(tn, vn)]))) =
        !readNorm ah v0) := by
  refine ⟨?_, ?_, ?_⟩
  · intro D ah t0 v0 tr t v hchain hne
    exact deb_stable_change_persist D ah t0 v0 tr t v hchain hne
  · intro D ah t0 v0 tr hchain hH
    apply deb_no_sustained_no_change D ah t0 v0 tr hchain
    intro xs t v ys hsplit
    subst hsplit
    have hk : xs.length < (xs ++ (t, v) :: ys).length := by
      simp
    have hx := hH ⟨xs.length, hk⟩
    rw [take_append_cons, get_append_cons] at hx
    exact hx
  · intro D ah t0 v0 t1 v1 rest tn vn hall hg
    have hb : readNorm ah v1 = !readNorm ah v0 :=
      hall (t1, v1) (List.mem_cons_self _ _)
    obtain ⟨hr, hlc, -⟩ := debStep_fields D ah (debInit ah t0 v0) t1 v1
    have hnev : ¬(readNorm ah v1 = (debInit ah t0 v0).raw) := by
      rw [hb]; simp [debInit]
    rw [if_neg hnev] at hlc
    have hr' : (debStep D ah (debInit ah t0 v0) t1 v1).raw = !readNorm ah v0 := by
      rw [hr, hb]
    have hres := debRun_same_fires D ah rest (debStep D ah (debInit ah t0 v0) t1 v1)
      tn vn
      (fun p hp => by
        rw [hr']
        exact hall p (List.mem_cons_of_mem _ (List.mem_append.mpr (Or.inl hp))))
      (by
        rw [hr']
        exact hall (tn, vn) (List.mem_cons_of_mem _
          (List.mem_append.mpr (Or.inr (List.mem_singleton.mpr rfl)))))
      (by rw [hlc]; exact hg)
    rw [hr'] at hres
    simpa [debRead, debRun, List.foldl_cons] using hres

/-- The spec's worked example, window 50 ms, sampling every 10 ms: a flip
at 10 ms that reverts at 30 ms never changes `read()`; a flip at 10 ms
that holds changes `read()` at the first sample 50 ms later. -/
theorem deb_example_flip :
    debRead (debRun 50 true (debInit true 0 false)
      [(10, true), (20, true), (30, false), (40, false), (50, false),
       (60, false), (70, false), (80, false)]) = false ∧
    debRead (debRun 50 true (debInit true 0 false)
      [(10, true), (20, true), (30, true), (40, true), (50, true),
       (60, true)]) = true := by
  decide

/-- Witness for C4 at the spec's 50 ms window, sampling every 10 ms:
(i) a flip at 10 ms held until the 60 ms sample changes the stable level
there, and every sample within the window read the new level; (ii) a flip
at 10 ms reverted at 30 ms never changes `read()`; (iii) a flip held for
the window changes `read()`. -/
theorem C4_debounce_contract_witness :
    (debRead (debStep 50 true (debRun 50 true (debInit true 0 false)
        [(10, true), (20, true), (30, true), (40, true), (50, true)]) 60 true) =
        (debStep 50 true (debRun 50 true (debInit true 0 false)
          [(10, true), (20, true), (30, true), (40, true), (50, true)]) 60 true).raw ∧
      ∀ p ∈ ((0, false) : Nat × Bool) ::
          ([(10, true), (20, true), (30, true), (40, true), (50, true)] ++ [(60, true)]),
        60 - p.1 ≤ 50 →
        readNorm true p.2 =
          debRead (debStep 50 true (debRun 50 true (debInit true 0 false)
            [(10, true), (20, true), (30, true), (40, true), (50, true)]) 60 true)) ∧
    debRead (debRun 50 true (debInit true 0 false)
      [(10, true), (20, true), (30, false), (40, false), (50, false),
       (60, false), (70, false), (80, false)]) = readNorm true false ∧
    debRead (debRun 50 true (debInit true 0 false)
      ((10, true) :: ([(20, true), (30, true), (40, true), (50, true)] ++ [(60, true)]))) =
      !readNorm true false :=
  ⟨C4_debounce_contract.1 50 true 0 false
      [(10, true), (20, true), (30, true), (40, true), (50, true)] 60 true
      (by norm_num [List.chain_cons]) (by decide),
   C4_debounce_contract.2.1 50 true 0 false
      [(10, true), (20, true), (30, false), (40, false), (50, false),
       (60, false), (70, false), (80, false)] (by norm_num [List.chain_cons]) (by decide),
   C4_debounce_contract.2.2 50 true 0 false 10 true
      [(20, true), (30, true), (40, true), (50, true)] 60 true
      (by decide) (by decide)⟩

/-! ### RS-485 sensor pipeline (src/app/routers/sensor.py and src/main.py)

Python floats are modelled as exact rationals and `math.log` as an
explicit function parameter (none of the claims below depends on a value
of the logarithm); the float NaN used as the "undefined dew point"
sentinel becomes `Option.none`.  Rational division is total in Lean
(`x / 0 = 0`), which only matters at `gamma = a`, a case no claim
touches.  A Modbus read outcome is a register list or an error string. -/

def TEMP_INDEX : Nat := 0
def HUMI_INDEX : Nat := 1
def SCALE_DIV : ℚ := 10
def INDOOR_ID : Nat := 1
def OUTDOOR_ID : Nat := 2

/-- `to_humi_temp` of sensor.py / test sensor.py: explicit length check,
then `humi = regs[HUMI_INDEX] / SCALE_DIV`, `temp = regs[TEMP_INDEX] /
SCALE_DIV`, returned in that order. -/
def to_humi_temp (tempIdx humiIdx : Nat) (div : ℚ) (regs : List Nat) :
    Except String (ℚ × ℚ) :=
  let need := max humiIdx tempIdx + 1
  if regs.length < need then .error "need more registers"
  else .ok (((regs.getD humiIdx 0 : ℕ) : ℚ) / div, ((regs.getD tempIdx 0 : ℕ) : ℚ) / div)

/-- `to_humi_temp` of main.py: no explicit check; Python raises
`IndexError` when the tuple is too short for the configured indices. -/
def to_humi_temp_main (tempIdx humiIdx : Nat) (div : ℚ) (regs : List Nat) :
    Except String (ℚ × ℚ) :=
  if regs.length ≤ max humiIdx tempIdx then .error "IndexError"
  else .ok (((regs.getD humiIdx 0 : ℕ) : ℚ) / div, ((regs.getD tempIdx 0 : ℕ) : ℚ) / div)

/-- `dew_point_c` of sensor.py: NaN sentinel for `rh <= 0 or rh > 100`,
otherwise the Magnus formula with `a = 17.62`, `b = 243.12`,
`gamma = (a*t)/(b+t) + log(rh/100)`, value `(b*gamma)/(a-gamma)`. -/
def dew_point_c (log : ℚ → ℚ) (temp_c rh_percent : ℚ) : Option ℚ :=
  if rh_percent ≤ 0 ∨ 100 < rh_percent then none
  else
    let a : ℚ := 17.62
    let b : ℚ := 243.12
    let gamma := (a * temp_c) / (b + temp_c) + log (rh_percent / 100)
    some ((b * gamma) / (a - gamma))

/-- `calc_dewpoint` of main.py: the guard checks only `rh <= 0` — there
is no upper-bound check. -/
def calc_dewpoint (log : ℚ → ℚ) (temp_c rh : ℚ) : Option ℚ :=
  if rh ≤ 0 then none
  else
    let a : ℚ := 17.62
    let b : ℚ := 243.12
    let gamma := log (rh / 100) + (a * temp_c) / (b + temp_c)
    some ((b * gamma) / (a - gamma))

/-- Python's `round(x, 1)` on an exact value: round half to even at one
decimal place. -/
def roundHalfEven (q : ℚ) : ℤ :=
  let f : ℤ := q.num.fdiv (q.den : ℤ)
  let r : ℚ := q - (f : ℚ)
  if r < 1 / 2 then f
  else if (1 : ℚ) / 2 < r then f + 1
  else if f % 2 = 0 then f else f + 1

def round1 (q : ℚ) : ℚ := ((roundHalfEven (q * 10) : ℤ) : ℚ) / 10

/-- Outcome of `read_raw_regs` for one unit. -/
inductive ReadResult where
  | ok (regs : List Nat)
  | err (e : String)
deriving DecidableEq, Repr

/-- One unit's block in a broadcast payload (raw registers plus the three
rounded derived values; `dew = none` is the NaN sentinel). -/
structure SensorVals where
  raw : List Nat
  humi : ℚ
  temp : ℚ
  dew : Option ℚ
deriving DecidableEq, Repr

inductive PackEntry where
  | reading (v : SensorVals)
  | failed (e : String)
deriving DecidableEq, Repr

def PackEntry.isFailed : PackEntry → Bool
  | .reading _ => false
  | .failed _ => true

/-- `pack(unit_id, label)` inside sensor.py's `_poll_loop`: the whole
body is inside `try`, so a read failure or a register-count failure both
become a per-label error entry. -/
def pack (log : ℚ → ℚ) (readF : Nat → ReadResult) (unit_id : Nat) : PackEntry :=
  match readF unit_id with
  | .err e => .failed e
  | .ok regs =>
    match to_humi_temp TEMP_INDEX HUMI_INDEX SCALE_DIV regs with
    | .error e => .failed e
    | .ok (h, t) =>
      .reading ⟨regs, round1 h, round1 t, (dew_point_c log t h).map round1⟩

/-- One tick's broadcast payload of sensor.py's `_poll_loop`:
`payload.update(pack(INDOOR_ID,...)); payload.update(pack(OUTDOOR_ID,...))`
then `ok = False` iff either label carries an error. -/
structure TickPayload where
  indoor : PackEntry
  outdoor : PackEntry
  ok : Bool
deriving DecidableEq, Repr

def poll_tick (log : ℚ → ℚ) (readF : Nat → ReadResult) : TickPayload :=
  let ind := pack log readF INDOOR_ID
  let outd := pack log readF OUTDOOR_ID
  ⟨ind, outd, !(ind.isFailed || outd.isFailed)⟩

/-- One unit's entry in main.py's websocket payload:
`{"unit_id", "temp", "humi", "dewpoint"}` — no raw registers there. -/
structure MainWsVals where
  unit_id : Nat
  temp : ℚ
  humi : ℚ
  dew : Option ℚ
deriving DecidableEq, Repr

/-- `pack(unit_id)` inside main.py's `sensor_poll_loop` (no try of its
own; errors propagate to the single surrounding `try`). -/
def pack_main (log : ℚ → ℚ) (readF : Nat → ReadResult) (unit_id : Nat) :
    Except String MainWsVals :=
  match readF unit_id with
  | .err e => .error e
  | .ok regs =>
    match to_humi_temp_main TEMP_INDEX HUMI_INDEX SCALE_DIV regs with
    | .error e => .error e
    | .ok (h, t) =>
      .ok ⟨unit_id, round1 t, round1 h, (calc_dewpoint log t h).map round1⟩

/-- One tick's payload of main.py's `sensor_poll_loop`: one `try` around
both units, so a failure on the first unit aborts the second unit's pack
and the payload gets a single top-level error, no per-label entry. -/
structure MainTickPayload where
  indoor : Option MainWsVals
  outdoor : Option MainWsVals
  ok : Bool
  error : Option String
deriving DecidableEq, Repr

def sensor_poll_tick_main (log : ℚ → ℚ) (readF : Nat → ReadResult) :
    MainTickPayload :=
  match pack_main log readF INDOOR_ID with
  | .error e => ⟨none, none, false, some e⟩
  | .ok r1 =>
    match pack_main log readF OUTDOOR_ID with
    | .error e => ⟨some r1, none, false, some e⟩
    | .ok r2 => ⟨some r1, some r2, true, none⟩

/-- The one-shot endpoint `read_sensor_unit` of sensor.py: success JSON
(name, raw registers unrounded, rounded humi/temp/dewpoint) or a 500
error body. -/
structure UnitResponse where
  ok : Bool
  name : String
  unit_id : Nat
  raw_registers : List Nat
  humi : ℚ
  temp : ℚ
  dewpoint : Option ℚ
deriving DecidableEq, Repr

def unitName (unit_id : Nat) : String :=
  if unit_id = INDOOR_ID then "indoor"
  else if unit_id = OUTDOOR_ID then "outdoor"
  else "unit_" ++ toString unit_id

def read_sensor_unit (log : ℚ → ℚ) (readF : Nat → ReadResult) (unit_id : Nat) :
    Except String UnitResponse :=
  match readF unit_id with
  | .err e => .error e
  | .ok regs =>
    match to_humi_temp TEMP_INDEX HUMI_INDEX SCALE_DIV regs with
    | .error e => .error e
    | .ok (h, t) =>
      .ok ⟨true, unitName unit_id, unit_id, regs, round1 h, round1 t,
        (dew_point_c log t h).map round1⟩

/-- Counterexample to C5 as stated: in main.py's `sensor_poll_loop`, when
the indoor read fails and the outdoor read would succeed with valid
registers, the tick's payload contains NO reading for the successful
outdoor unit and no per-label error entry — only a top-level error — so
the remainder of the tick's packing was aborted. -/
theorem C5_counter_main_loop_not_isolated :
    sensor_poll_tick_main (fun _ => 0)
        (fun u => if u = 1 then .err "indoor offline" else .ok [250, 600]) =
      ⟨none, none, false, some "indoor offline"⟩ := by
  rfl

/-- C5 (amended): sensor.py's `_poll_loop` has per-unit isolation — if
one unit's read fails and the other succeeds, the tick's payload still
contains the successful unit's valid reading plus a per-label error entry
for the failed unit, and `ok` is false exactly when at least one label
carries an error; main.py's `sensor_poll_loop` does not have this
property (see the counterexample): its single `try` aborts the remainder
of the tick's packing at the first failure. -/
theorem C5_sensor_loop_per_unit_isolation (log : ℚ → ℚ) (readF : Nat → ReadResult) :
    ((poll_tick log readF).ok = false ↔
      ((poll_tick log readF).indoor.isFailed = true ∨
        (poll_tick log readF).outdoor.isFailed = true)) ∧
    (∀ e regs, readF INDOOR_ID = .err e → readF OUTDOOR_ID = .ok regs →
      2 ≤ regs.length →
      (poll_tick log readF).indoor = .failed e ∧
      (poll_tick log readF).outdoor = .reading
        ⟨regs, round1 (((regs.getD HUMI_INDEX 0 : ℕ) : ℚ) / SCALE_DIV),
          round1 (((regs.getD TEMP_INDEX 0 : ℕ) : ℚ) / SCALE_DIV),
          (dew_point_c log (((regs.getD TEMP_INDEX 0 : ℕ) : ℚ) / SCALE_DIV)
            (((regs.getD HUMI_INDEX 0 : ℕ) : ℚ) / SCALE_DIV)).map round1⟩ ∧
      (poll_tick log readF).ok = false) ∧
    (∀ e regs, readF OUTDOOR_ID = .err e → readF INDOOR_ID = .ok regs →
      2 ≤ regs.length →
      (poll_tick log readF).outdoor = .failed e ∧
      (poll_tick log readF).indoor = .reading
        ⟨regs, round1 (((regs.getD HUMI_INDEX 0 : ℕ) : ℚ) / SCALE_DIV),
          round1 (((regs.getD TEMP_INDEX 0 : ℕ) : ℚ) / SCALE_DIV),
          (dew_point_c log (((regs.getD TEMP_INDEX 0 : ℕ) : ℚ) / SCALE_DIV)
            (((regs.getD HUMI_INDEX 0 : ℕ) : ℚ) / SCALE_DIV)).map round1⟩ ∧
      (poll_tick log readF).ok = false) := by
  refine ⟨?_, ?_, ?_⟩
  · simp only [poll_tick, Bool.not_or]
    cases h1 : (pack log readF INDOOR_ID).isFailed <;>
      cases h2 : (pack log readF OUTDOOR_ID).isFailed <;> simp
  · intro e regs hie hoe hlen
    have hto : to_humi_temp TEMP_INDEX HUMI_INDEX SCALE_DIV regs =
        .ok (((regs.getD HUMI_INDEX 0 : ℕ) : ℚ) / SCALE_DIV,
          ((regs.getD TEMP_INDEX 0 : ℕ) : ℚ) / SCALE_DIV) := by
      unfold to_humi_temp
      rw [if_neg (by simp [HUMI_INDEX, TEMP_INDEX]; omega)]
    have hpi : pack log readF INDOOR_ID = .failed e := by
      unfold pack; rw [hie]
    have hpo : pack log readF OUTDOOR_ID = .reading
        ⟨regs, round1 (((regs.getD HUMI_INDEX 0 : ℕ) : ℚ) / SCALE_DIV),
          round1 (((regs.getD TEMP_INDEX 0 : ℕ) : ℚ) / SCALE_DIV),
          (dew_point_c log (((regs.getD TEMP_INDEX 0 : ℕ) : ℚ) / SCALE_DIV)
            (((regs.getD HUMI_INDEX 0 : ℕ) : ℚ) / SCALE_DIV)).map round1⟩ := by
      simp [pack, hoe, hto]
    refine ⟨by simp [poll_tick, hpi], by simp [poll_tick, hpo], ?_⟩
    simp [poll_tick, hpi, PackEntry.isFailed]
  · intro e regs hoe hie hlen
    have hto : to_humi_temp TEMP_INDEX HUMI_INDEX SCALE_DIV regs =
        .ok (((regs.getD HUMI_INDEX 0 : ℕ) : ℚ) / SCALE_DIV,
          ((regs.getD TEMP_INDEX 0 : ℕ) : ℚ) / SCALE_DIV) := by
      unfold to_humi_temp
      rw [if_neg (by simp [HUMI_INDEX, TEMP_INDEX]; omega)]
    have hpo : pack log readF OUTDOOR_ID = .failed e := by
      unfold pack; rw [hoe]
    have hpi : pack log readF INDOOR_ID = .reading
        ⟨regs, round1 (((regs.getD HUMI_INDEX 0 : ℕ) : ℚ) / SCALE_DIV),
          round1 (((regs.getD TEMP_INDEX 0 : ℕ) : ℚ) / SCALE_DIV),
          (dew_point_c log (((regs.getD TEMP_INDEX 0 : ℕ) : ℚ) / SCALE_DIV)
            (((regs.getD HUMI_INDEX 0 : ℕ) : ℚ) / SCALE_DIV)).map round1⟩ := by
      simp [pack, hie, hto]
    refine ⟨by simp [poll_tick, hpo], by simp [poll_tick, hpi], ?_⟩
    simp [poll_tick, hpo, PackEntry.isFailed]

/-- Witness for C5 (amended), at a concrete tick: the indoor read raises,
the outdoor read returns `[250, 600]` — the payload still carries the
outdoor reading, the indoor error entry, and `ok = false`. -/
theorem C5_sensor_loop_isolation_witness :
    (poll_tick (fun _ => 0)
        (fun u => if u = 1 then .err "indoor offline" else .ok [250, 600])).indoor =
      .failed "indoor offline" ∧
    (poll_tick (fun _ => 0)
        (fun u => if u = 1 then .err "indoor offline" else .ok [250, 600])).outdoor =
      .reading ⟨[250, 600],
        round1 (((([250, 600] : List Nat).getD HUMI_INDEX 0 : ℕ) : ℚ) / SCALE_DIV),
        round1 (((([250, 600] : List Nat).getD TEMP_INDEX 0 : ℕ) : ℚ) / SCALE_DIV),
        (dew_point_c (fun _ => 0)
          (((([250, 600] : List Nat).getD TEMP_INDEX 0 : ℕ) : ℚ) / SCALE_DIV)
          (((([250, 600] : List Nat).getD HUMI_INDEX 0 : ℕ) : ℚ) / SCALE_DIV)).map
            round1⟩ ∧
    (poll_tick (fun _ => 0)
        (fun u => if u = 1 then .err "indoor offline" else .ok [250, 600])).ok =
      false :=
  (C5_sensor_loop_per_unit_isolation (fun _ => 0)
      (fun u => if u = 1 then .err "indoor offline" else .ok [250, 600])).2.1
    "indoor offline" [250, 600] rfl rfl (by norm_num)

/-- Counterexample to C6 as stated: main.py's `calc_dewpoint` — one of
the two cited dew-point functions — has no upper-bound check, so
`rh = 101` yields a numeric dew point, not the NaN sentinel (sensor.py's
`dew_point_c` does return the sentinel there). -/
theorem C6_counter_calc_dewpoint_rh_101 :
    calc_dewpoint (fun _ => 0) 25 101 ≠ none ∧
    dew_point_c (fun _ => 0) 25 101 = none := by
  constructor
  · norm_num [calc_dewpoint]
    exact Option.some_ne_none _
  · norm_num [dew_point_c]

/-- C6 (amended): sensor.py's `dew_point_c` returns the NaN sentinel
exactly when RH is outside `0 < RH ≤ 100` (so both `rh = 0` and
`rh = 101` yield the sentinel there), and for RH in range it returns the
Magnus value `(b·γ)/(a−γ)` with `γ = (a·T)/(b+T) + ln(RH/100)`,
`a = 17.62`, `b = 243.12`; main.py's `calc_dewpoint` however checks only
`rh ≤ 0`, so `rh = 101` yields a numeric value there.  In either case a
reading's humidity and temperature stay valid when the dew point is the
sentinel: the one-shot response is built from the rounded humi/temp with
the dew point merely mapped through, never failing the reading. -/
theorem C6_dew_point_sentinel (log : ℚ → ℚ) (t rh : ℚ) :
    (dew_point_c log t rh = none ↔ (rh ≤ 0 ∨ 100 < rh)) ∧
    (calc_dewpoint log t rh = none ↔ rh ≤ 0) ∧
    (dew_point_c log 25 0 = none ∧ dew_point_c log 25 101 = none) ∧
    (0 < rh → rh ≤ 100 →
      dew_point_c log t rh =
        some ((243.12 * ((17.62 * t) / (243.12 + t) + log (rh / 100))) /
          (17.62 - ((17.62 * t) / (243.12 + t) + log (rh / 100))))) ∧
    (∀ (readF : Nat → ReadResult) (unit_id : Nat) (regs : List Nat),
      readF unit_id = ReadResult.ok regs → 2 ≤ regs.length →
      read_sensor_unit log readF unit_id = .ok
        ⟨true, unitName unit_id, unit_id, regs,
          round1 (((regs.getD HUMI_INDEX 0 : ℕ) : ℚ) / SCALE_DIV),
          round1 (((regs.getD TEMP_INDEX 0 : ℕ) : ℚ) / SCALE_DIV),
          (dew_point_c log (((regs.getD TEMP_INDEX 0 : ℕ) : ℚ) / SCALE_DIV)
            (((regs.getD HUMI_INDEX 0 : ℕ) : ℚ) / SCALE_DIV)).map round1⟩) := by
  refine ⟨?_, ?_, ?_, ?_, ?_⟩
  · unfold dew_point_c
    split
    · simpa
    · rename_i hcond
      push_neg at hcond
      simpa using hcond
  · unfold calc_dewpoint
    split
    · simpa
    · rename_i hcond
      push_neg at hcond
      simpa using hcond
  · constructor
    · norm_num [dew_point_c]
    · norm_num [dew_point_c]
  · intro h1 h2
    unfold dew_point_c
    rw [if_neg (by push_neg; exact ⟨h1, h2⟩)]
  · intro readF unit_id regs hre hlen
    have hto : to_humi_temp TEMP_INDEX HUMI_INDEX SCALE_DIV regs =
        .ok (((regs.getD HUMI_INDEX 0 : ℕ) : ℚ) / SCALE_DIV,
          ((regs.getD TEMP_INDEX 0 : ℕ) : ℚ) / SCALE_DIV) := by
      unfold to_humi_temp
      rw [if_neg (by simp [HUMI_INDEX, TEMP_INDEX]; omega)]
    simp [read_sensor_unit, hre, hto]

/-- Witness for C6 (amended): at `rh = 50`, `t = 25` the dew point is the
Magnus value (with the abstract logarithm at 0), and a successful reading
on unit 2 keeps its humidity and temperature even though the dew-point
field is merely mapped through. -/
theorem C6_dew_point_sentinel_witness :
    dew_point_c (fun _ => 0) 25 50 =
      some ((243.12 * ((17.62 * 25) / (243.12 + 25) + 0)) /
        (17.62 - ((17.62 * 25) / (243.12 + 25) + 0))) ∧
    read_sensor_unit (fun _ => 0) (fun _ => .ok [250, 600]) 2 = .ok
      ⟨true, unitName 2, 2, [250, 600],
        round1 (((([250, 600] : List Nat).getD HUMI_INDEX 0 : ℕ) : ℚ) / SCALE_DIV),
        round1 (((([250, 600] : List Nat).getD TEMP_INDEX 0 : ℕ) : ℚ) / SCALE_DIV),
        (dew_point_c (fun _ => 0)
          (((([250, 600] : List Nat).getD TEMP_INDEX 0 : ℕ) : ℚ) / SCALE_DIV)
          (((([250, 600] : List Nat).getD HUMI_INDEX 0 : ℕ) : ℚ) / SCALE_DIV)).map
            round1⟩ :=
  ⟨(C6_dew_point_sentinel (fun _ => 0) 25 50).2.2.2.1 (by norm_num) (by norm_num),
   (C6_dew_point_sentinel (fun _ => 0) 25 50).2.2.2.2
     (fun _ => .ok [250, 600]) 2 [250, 600] rfl (by norm_num)⟩

/-- C7: for every register tuple long enough for the configured indices,
the unit conversion yields `humidityPct = registers[humiIndex]/div` and
`temperatureC = registers[tempIndex]/div` (both the checked sensor.py
version and the uncheck-ed main.py version). -/
theorem C7_to_humi_temp_conversion (tempIdx humiIdx : Nat) (div : ℚ)
    (regs : List Nat) (h : max humiIdx tempIdx + 1 ≤ regs.length) :
    to_humi_temp tempIdx humiIdx div regs =
      .ok (((regs.getD humiIdx 0 : ℕ) : ℚ) / div,
        ((regs.getD tempIdx 0 : ℕ) : ℚ) / div) ∧
    to_humi_temp_main tempIdx humiIdx div regs =
      .ok (((regs.getD humiIdx 0 : ℕ) : ℚ) / div,
        ((regs.getD tempIdx 0 : ℕ) : ℚ) / div) := by
  refine ⟨?_, ?_⟩
  · unfold to_humi_temp
    rw [if_neg (by omega)]
  · unfold to_humi_temp_main
    rw [if_neg (by omega)]

/-- Witness for C7: the spec's example — registers `[250, 600]`,
`tempIndex = 0`, `humiIndex = 1`, `scaleDivisor = 10` give
`humi = 60.0`, `temp = 25.0`. -/
theorem C7_to_humi_temp_witness :
    to_humi_temp 0 1 10 [250, 600] = .ok (60, 25) ∧
    to_humi_temp_main 0 1 10 [250, 600] = .ok (60, 25) := by
  have h := C7_to_humi_temp_conversion 0 1 10 [250, 600] (by norm_num)
  refine ⟨h.1.trans ?_, h.2.trans ?_⟩ <;> norm_num [List.getD]

/-! ### BroadcastHub fan-out (sensor.py `_poll_loop`, main.py
`sensor_poll_loop`): one send attempt per subscriber in the snapshot;
failed subscribers are collected in `stale` and discarded from the live
set before the tick's closing `asyncio.sleep`. -/

/-- The send loop: returns (subscribers that received the payload,
`stale`), in iteration order.  `fails c = true` models `ws.send_json`
raising for that subscriber. -/
def fanout (clients : List Nat) (fails : Nat → Bool) : List Nat × List Nat :=
  match clients with
  | [] => ([], [])
  | c :: rest =>
    let (d, s) := fanout rest fails
    if fails c then (d, c :: s) else (c :: d, s)

/-- The whole tick's hub update: sends, then
`for ws in stale: clients.discard(ws)`. -/
def broadcastTick (clients : List Nat) (fails : Nat → Bool) :
    List Nat × List Nat :=
  let ds := fanout clients fails
  (ds.1, clients.filter (fun c => decide (c ∉ ds.2)))

lemma fanout_mem (fails : Nat → Bool) :
    ∀ (clients : List Nat) (c : Nat),
      (c ∈ (fanout clients fails).1 ↔ c ∈ clients ∧ fails c = false) ∧
      (c ∈ (fanout clients fails).2 ↔ c ∈ clients ∧ fails c = true) := by
  intro clients
  induction clients with
  | nil => intro c; simp [fanout]
  | cons x rest ih =>
    intro c
    obtain ⟨ih1, ih2⟩ := ih c
    unfold fanout
    by_cases hcx : c = x
    · subst hcx
      cases hf : fails c <;> simp [hf, ih1, ih2]
    · cases hf : fails x <;> simp [hf, ih1, ih2, hcx]

/-- C8: on each tick every currently registered subscriber whose send
succeeds receives that tick's payload, and the live set afterwards is
exactly the subscribers whose send did not fail — every subscriber whose
send failed during the tick is removed before the next tick begins, and
the removal of failed ones does not affect delivery to the rest. -/
theorem C8_subscriber_pruning (clients : List Nat) (fails : Nat → Bool) (c : Nat) :
    (c ∈ (broadcastTick clients fails).1 ↔ c ∈ clients ∧ fails c = false) ∧
    (c ∈ (broadcastTick clients fails).2 ↔ c ∈ clients ∧ fails c = false) := by
  obtain ⟨h1, h2⟩ := fanout_mem fails clients c
  refine ⟨h1, ?_⟩
  simp only [broadcastTick, List.mem_filter]
  constructor
  · rintro ⟨hm, hns⟩
    refine ⟨hm, ?_⟩
    cases hf : fails c
    · rfl
    · exact absurd (h2.mpr ⟨hm, hf⟩) (by simpa using hns)
  · rintro ⟨hm, hf⟩
    refine ⟨hm, ?_⟩
    simp only [decide_eq_true_eq]
    intro hs
    rw [(h2.mp hs).2] at hf
    cases hf

/-! ### Per-request pulse-duration resolution (`door_open`/`door_close`:
`pulse_ms = ms or (body.ms if body and body.ms else None) or
DEFAULT_PULSE_MS`).  `msQ` is the query parameter, `body` is
no-body / body-without-ms / body-with-ms; Python truthiness makes both
`None` and `0` fall through. -/

def resolve_pulse_ms (msQ : Option Nat) (body : Option (Option Nat))
    (dflt : Nat) : Nat :=
  let b : Option Nat :=
    match body with
    | some (some m) => if m ≠ 0 then some m else none
    | _ => none
  match msQ with
  | some m => if m ≠ 0 then m else b.getD dflt
  | none => b.getD dflt

/-- The claim's precedence, modelled from the spec's words for
comparison: `effectiveDuration = explicit-body ?? explicit-query ??
default`. -/
def resolve_pulse_ms_spec (msQ : Option Nat) (body : Option (Option Nat))
    (dflt : Nat) : Nat :=
  match body with
  | some (some m) => m
  | _ => msQ.getD dflt

/-- Counterexample to C9 as stated: with an explicit body value 100 and
an explicit query value 200, the code resolves to the QUERY value 200,
while the claimed precedence (body first) would give 100. -/
theorem C9_counter_query_over_body :
    resolve_pulse_ms (some 200) (some (some 100)) 800 = 200 ∧
    resolve_pulse_ms_spec (some 200) (some (some 100)) 800 = 100 ∧
    (200 : Nat) ≠ 100 := by
  decide

/-- C9 (amended): the effective pulse duration is resolved once per
request with the precedence QUERY value first, then body value, then the
configured default (`effectiveDuration = explicit-query ?? explicit-body
?? default`, with Python truthiness: an absent or zero value falls
through). -/
theorem C9_effective_duration_precedence (m b d : Nat) :
    (m ≠ 0 → ∀ body, resolve_pulse_ms (some m) body d = m) ∧
    (b ≠ 0 → resolve_pulse_ms none (some (some b)) d = b) ∧
    resolve_pulse_ms none none d = d ∧
    resolve_pulse_ms none (some none) d = d ∧
    resolve_pulse_ms none (some (some 0)) d = d ∧
    resolve_pulse_ms (some 0) none d = d := by
  refine ⟨?_, ?_, rfl, rfl, by simp [resolve_pulse_ms], by simp [resolve_pulse_ms]⟩
  · intro hm body
    simp [resolve_pulse_ms, hm]
  · intro hb
    simp [resolve_pulse_ms, hb]

/-- Witness for C9 (amended): query 200 wins over body 100; body 100
wins over default 800. -/
theorem C9_effective_duration_witness :
    ((200 : Nat) ≠ 0 → ∀ body, resolve_pulse_ms (some 200) body 800 = 200) ∧
    ((100 : Nat) ≠ 0 → resolve_pulse_ms none (some (some 100)) 800 = 100) ∧
    resolve_pulse_ms none none 800 = 800 ∧
    resolve_pulse_ms none (some none) 800 = 800 ∧
    resolve_pulse_ms none (some (some 0)) 800 = 800 ∧
    resolve_pulse_ms (some 0) none 800 = 800 :=
  C9_effective_duration_precedence 200 100 800

/-- C10: every humidity, temperature and dew-point value returned by the
one-shot sensor endpoint and included in a tick's broadcast entry is the
one-decimal rounding (`round(x, 1)`) of the converted value, while the
raw register tuple is passed through unrounded; and `round1` really is a
one-decimal-place value (an integer number of tenths). -/
theorem C10_values_rounded_raw_unrounded (log : ℚ → ℚ)
    (readF : Nat → ReadResult) (unit_id : Nat) (regs : List Nat)
    (hre : readF unit_id = .ok regs) (hlen : 2 ≤ regs.length) :
    (read_sensor_unit log readF unit_id = .ok
      ⟨true, unitName unit_id, unit_id, regs,
        round1 (((regs.getD HUMI_INDEX 0 : ℕ) : ℚ) / SCALE_DIV),
        round1 (((regs.getD TEMP_INDEX 0 : ℕ) : ℚ) / SCALE_DIV),
        (dew_point_c log (((regs.getD TEMP_INDEX 0 : ℕ) : ℚ) / SCALE_DIV)
          (((regs.getD HUMI_INDEX 0 : ℕ) : ℚ) / SCALE_DIV)).map round1⟩) ∧
    (pack log readF unit_id = .reading
      ⟨regs, round1 (((regs.getD HUMI_INDEX 0 : ℕ) : ℚ) / SCALE_DIV),
        round1 (((regs.getD TEMP_INDEX 0 : ℕ) : ℚ) / SCALE_DIV),
        (dew_point_c log (((regs.getD TEMP_INDEX 0 : ℕ) : ℚ) / SCALE_DIV)
          (((regs.getD HUMI_INDEX 0 : ℕ) : ℚ) / SCALE_DIV)).map round1⟩) ∧
    (∀ q : ℚ, ∃ z : ℤ, round1 q = (z : ℚ) / 10) := by
  have hto : to_humi_temp TEMP_INDEX HUMI_INDEX SCALE_DIV regs =
      .ok (((regs.getD HUMI_INDEX 0 : ℕ) : ℚ) / SCALE_DIV,
        ((regs.getD TEMP_INDEX 0 : ℕ) : ℚ) / SCALE_DIV) := by
    unfold to_humi_temp
    rw [if_neg (by simp [HUMI_INDEX, TEMP_INDEX]; omega)]
  refine ⟨?_, ?_, ?_⟩
  · simp [read_sensor_unit, hre, hto]
  · simp [pack, hre, hto]
  · intro q
    exact ⟨roundHalfEven (q * 10), rfl⟩

/-- Witness for C10: registers `[250, 600]` on the indoor unit — raw
tuple reported as-is, `humi = round1 60`, `temp = round1 25`, dew point
rounded through the sentinel-aware map. -/
theorem C10_values_rounded_witness :
    (read_sensor_unit (fun _ => 0) (fun _ => .ok [250, 600]) 1 = .ok
      ⟨true, unitName 1, 1, [250, 600],
        round1 ((((([250, 600] : List Nat).getD HUMI_INDEX 0 : ℕ)) : ℚ) / SCALE_DIV),
        round1 ((((([250, 600] : List Nat).getD TEMP_INDEX 0 : ℕ)) : ℚ) / SCALE_DIV),
        (dew_point_c (fun _ => 0)
          ((((([250, 600] : List Nat).getD TEMP_INDEX 0 : ℕ)) : ℚ) / SCALE_DIV)
          ((((([250, 600] : List Nat).getD HUMI_INDEX 0 : ℕ)) : ℚ) / SCALE_DIV)).map
            round1⟩) ∧
    (pack (fun _ => 0) (fun _ => .ok [250, 600]) 1 = .reading
      ⟨[250, 600],
        round1 ((((([250, 600] : List Nat).getD HUMI_INDEX 0 : ℕ)) : ℚ) / SCALE_DIV),
        round1 ((((([250, 600] : List Nat).getD TEMP_INDEX 0 : ℕ)) : ℚ) / SCALE_DIV),
        (dew_point_c (fun _ => 0)
          ((((([250, 600] : List Nat).getD TEMP_INDEX 0 : ℕ)) : ℚ) / SCALE_DIV)
          ((((([250, 600] : List Nat).getD HUMI_INDEX 0 : ℕ)) : ℚ) / SCALE_DIV)).map
            round1⟩) ∧
    (∀ q : ℚ, ∃ z : ℤ, round1 q = (z : ℚ) / 10) :=
  C10_values_rounded_raw_unrounded (fun _ => 0) (fun _ => .ok [250, 600]) 1
    [250, 600] rfl (by norm_num)
